import Mathlib

/-!
Shallow embedding of the Civic Issue Intelligence Engine (the Express +
Prisma server in `src/lib/utils.ts`, plus its seed script and shared type
declarations).  Persistent storage is modelled as an explicit `DB` value;
each HTTP handler becomes a pure function from a `DB` (plus request data
and the current time) to a new `DB` and/or a response value.  JavaScript
`Date` timestamps are modelled as natural numbers counting milliseconds;
ISO date strings (`toISOString().split('T')[0]`) are modelled by the
calendar-day index `t / 86400000`, which is ordered the same way the date
strings are ordered by `localeCompare`.  Floating-point sentiment and
priority scores are modelled as rationals.  `uuidv4()` / autoincrement
ids are modelled by per-table counters handing out fresh numeric tokens.
-/

namespace Civic

/-- Milliseconds per calendar day. -/
def dayMs : Nat := 86400000

/-- Calendar-day index of a millisecond timestamp (models
`date.toISOString().split('T')[0]`: two timestamps get the same day index
exactly when they print the same ISO date, and day indices are ordered the
same way the ISO date strings are). -/
def dayOf (t : Nat) : Nat := t / dayMs

/-- The classifier oracle's structured judgment (the `analysis` object the
client sends to `POST /api/problems`, produced by `analyzeProblemAI`). -/
structure Analysis where
  sentiment_label : String
  sentiment_score : Rat
  priority_score : Rat
  is_urgent : Bool
  category : String
  cluster_suggestion : String
deriving DecidableEq

/-- A row of the Prisma `problem` table. -/
structure Problem where
  id : Nat
  user_id : Nat
  title : String
  description : String
  category : String
  location : String
  status : String
  sentiment_score : Rat
  sentiment_label : String
  priority_score : Rat
  is_urgent : Bool
  created_at : Nat
  resolved_at : Option Nat
  cluster_id : Option Nat
deriving DecidableEq

/-- A row of the Prisma `cluster` table (narrative summary and
`last_updated` are irrelevant to the claims and omitted). -/
structure Cluster where
  id : Nat
  cluster_name : String
  area : String
  problem_count : Nat
  avg_sentiment : Rat
deriving DecidableEq

/-- A row of the Prisma `resolvedComment` table. -/
structure ResolvedComment where
  id : Nat
  problem_id : Nat
  citizen_id : Nat
  rating : String
  comment : String
  time_taken : Nat
deriving DecidableEq

/-- The persistent store: the three tables the engine touches, plus the
id sources (`nextClusterId` models the autoincrement cluster id,
`nextProblemId` models `uuidv4()` handing out a fresh unique token). -/
structure DB where
  problems : List Problem
  clusters : List Cluster
  comments : List ResolvedComment
  nextClusterId : Nat
  nextProblemId : Nat
deriving DecidableEq

/-- Prisma `cluster_name: { contains: s }`: the stored name contains `s`
as a contiguous substring. -/
def strContains (hay pat : String) : Bool :=
  decide (pat.toList <:+: hay.toList)

/-- `prisma.cluster.findFirst({ where: { cluster_name: { contains: sugg } } })`. -/
def findCluster (clusters : List Cluster) (sugg : String) : Option Cluster :=
  clusters.find? (fun c => strContains c.cluster_name sugg)

/-- The find-or-create step of `POST /api/problems`: look up a cluster whose
name contains the suggestion; otherwise create one with
`cluster_name = sugg`, `area = loc` and the schema defaults
`problem_count = 0`, `avg_sentiment = 0`. -/
def resolveCluster (db : DB) (sugg loc : String) : Cluster × DB :=
  match findCluster db.clusters sugg with
  | some c => (c, db)
  | none =>
      let c : Cluster := ⟨db.nextClusterId, sugg, loc, 0, 0⟩
      (c, { db with clusters := db.clusters ++ [c],
                    nextClusterId := db.nextClusterId + 1 })

/-- `prisma.problem.findMany/count({ where: { cluster_id: cid } })`. -/
def membersOf (probs : List Problem) (cid : Nat) : List Problem :=
  probs.filter (fun p => decide (p.cluster_id = some cid))

/-- `prisma.problem.count({ where: { cluster_id: cid } })`. -/
def clusterCount (probs : List Problem) (cid : Nat) : Nat :=
  (membersOf probs cid).length

/-- `prisma.problem.aggregate({ where: { cluster_id: cid }, _avg: { sentiment_score } })`
followed by `|| 0`: the arithmetic mean of the members' sentiment scores,
0 when the member set is empty. -/
def clusterMean (probs : List Problem) (cid : Nat) : Rat :=
  let m := membersOf probs cid
  if m.length = 0 then 0 else (m.map Problem.sentiment_score).sum / (m.length : Rat)

/-- The "Update cluster stats" block of `POST /api/problems` (and of the
seed script's repair sweep): recompute the member count and mean sentiment
of cluster `cid` from the problem table and store them. -/
def refreshCluster (db : DB) (cid : Nat) : DB :=
  { db with clusters := db.clusters.map (fun c =>
      if c.id = cid then
        { c with problem_count := clusterCount db.problems cid,
                 avg_sentiment := clusterMean db.problems cid }
      else c) }

/-- The body of `POST /api/problems`. -/
structure SubmitRequest where
  title : String
  description : String
  category : String
  location : String
  analysis : Analysis
deriving DecidableEq

/-- The `prisma.problem.create` data object of `POST /api/problems`:
`pid` is the fresh id token, `cid` the resolved cluster's id, and the
status defaults to Pending. -/
def newProblem (pid userId : Nat) (s : SubmitRequest) (now : Nat) (cid : Nat) :
    Problem :=
  { id := pid, user_id := userId, title := s.title,
    description := s.description, category := s.category,
    location := s.location, status := "Pending",
    sentiment_score := s.analysis.sentiment_score,
    sentiment_label := s.analysis.sentiment_label,
    priority_score := s.analysis.priority_score,
    is_urgent := s.analysis.is_urgent,
    created_at := now, resolved_at := none, cluster_id := some cid }

/-- `POST /api/problems`: resolve the cluster suggestion to a cluster,
create the problem row assigned to it (status defaults to Pending,
`created_at` to the current time), then refresh that cluster's stats. -/
def submitProblem (db : DB) (userId : Nat) (s : SubmitRequest) (now : Nat) : DB :=
  let r := resolveCluster db s.analysis.cluster_suggestion s.location
  let c := r.1
  let db1 := r.2
  let db2 := { db1 with
    problems := db1.problems ++ [newProblem db1.nextProblemId userId s now c.id],
    nextProblemId := db1.nextProblemId + 1 }
  refreshCluster db2 c.id

/-- The write operations that touch cluster membership: a report
submission, or a bare statistics refresh of one cluster. -/
inductive Op where
  | submit (userId : Nat) (s : SubmitRequest) (now : Nat)
  | refresh (cid : Nat)
deriving DecidableEq

def applyOp (db : DB) : Op → DB
  | .submit u s now => submitProblem db u s now
  | .refresh cid => refreshCluster db cid

def applyOps (db : DB) (ops : List Op) : DB :=
  ops.foldl applyOp db

/-- Well-formedness of the cluster table: ids are distinct and below the
autoincrement counter. -/
def clusterIdsOK (db : DB) : Prop :=
  (db.clusters.map Cluster.id).Nodup ∧ ∀ c ∈ db.clusters, c.id < db.nextClusterId

/-- The reconciliation invariant: every cluster's stored count and mean
sentiment equal the values freshly recomputed from the problem table. -/
def clusterStatsOK (db : DB) : Prop :=
  ∀ c ∈ db.clusters,
    c.problem_count = clusterCount db.problems c.id ∧
    c.avg_sentiment = clusterMean db.problems c.id

/-- `PATCH /api/problems/:id/status`: when the new status is Resolved, also
stamp `resolved_at` with the current time; otherwise update the status
alone (leaving any existing `resolved_at` in place). -/
def updateStatus (db : DB) (pid : Nat) (status : String) (now : Nat) : DB :=
  if status = "Resolved" then
    { db with problems := db.problems.map (fun p =>
        if p.id = pid then { p with status := status, resolved_at := some now }
        else p) }
  else
    { db with problems := db.problems.map (fun p =>
        if p.id = pid then { p with status := status } else p) }

/-- The spec's Report invariant: `resolved_at` is set iff the status is
Resolved. -/
def resolvedIffInvariant (db : DB) : Prop :=
  ∀ p ∈ db.problems, (p.resolved_at ≠ none ↔ p.status = "Resolved")

/-- `POST /api/problems/:id/comment`: reject when the problem is missing or
has no `resolved_at`; otherwise create the feedback row with
`time_taken = floor((resolved_at − created_at) / 1000)` seconds and report
that value.  (`cid` models the fresh `uuidv4()` comment id.)  The handler
performs no check for an already existing feedback row. -/
def postComment (db : DB) (pid : Nat) (userId : Nat) (rating comment : String)
    (cid : Nat) : Except String (DB × Nat) :=
  match db.problems.find? (fun p => decide (p.id = pid)) with
  | none => .error "Problem not resolved"
  | some p =>
      match p.resolved_at with
      | none => .error "Problem not resolved"
      | some r =>
          let timeTaken := (r - p.created_at) / 1000
          .ok ({ db with comments := db.comments ++
                  [⟨cid, pid, userId, rating, comment, timeTaken⟩] }, timeTaken)

/-- One trend bucket: (calendar day, active count, resolved count). -/
abbrev Bucket := Nat × Nat × Nat

/-- The `trendMap` initialisation loop: one zeroed bucket per day
`today − i`, `i = 0 .. 29`. -/
def initTrend (today : Nat) : List Bucket :=
  (List.range 30).map (fun i => (today - i, 0, 0))

/-- `trendMap[date].active++`, a no-op when `date` is not a key (the
`if (trendMap[createdDate])` guard). -/
def bumpActive : List Bucket → Nat → List Bucket
  | [], _ => []
  | (d, a, r) :: rest, day =>
      if d = day then (d, a + 1, r) :: rest
      else (d, a, r) :: bumpActive rest day

/-- `trendMap[date].resolved++`, a no-op when `date` is not a key. -/
def bumpResolved : List Bucket → Nat → List Bucket
  | [], _ => []
  | (d, a, r) :: rest, day =>
      if d = day then (d, a, r + 1) :: rest
      else (d, a, r) :: bumpResolved rest day

/-- The body of the `problems.forEach` loop of `GET /api/stats`: bump the
creation day's active count when the problem is not Resolved, then bump the
resolution day's resolved count when `resolved_at` is set. -/
def applyTrendProblem (m : List Bucket) (p : Problem) : List Bucket :=
  let m1 := if p.status ≠ "Resolved" then bumpActive m (dayOf p.created_at) else m
  match p.resolved_at with
  | some t => bumpResolved m1 (dayOf t)
  | none => m1

/-- Bucket order used by the final `sort((a, b) => a.date.localeCompare(b.date))`. -/
def bucketLE (a b : Bucket) : Prop := a.1 ≤ b.1

instance : DecidableRel bucketLE :=
  fun a b => inferInstanceAs (Decidable (a.1 ≤ b.1))

instance : IsTotal Bucket bucketLE :=
  ⟨fun a b => Nat.le_total a.1 b.1⟩

instance : IsTrans Bucket bucketLE :=
  ⟨fun _ _ _ h1 h2 => Nat.le_trans h1 h2⟩

/-- The trend series of `GET /api/stats`, built from the fetched problem
rows: initialise the 30 buckets, run the forEach loop, sort ascending by
date. -/
def trendsOf (now : Nat) (probs : List Problem) : List Bucket :=
  List.insertionSort bucketLE (probs.foldl applyTrendProblem (initTrend (dayOf now)))

/-- The `problem.findMany` fetch feeding the trend loop: problems created
within the last 30 days (a timestamp comparison against `now − 30 days`),
restricted to the caller's own problems unless the caller is municipal. -/
def trendScope (db : DB) (isMunicipal : Bool) (userId : Nat) (now : Nat) :
    List Problem :=
  db.problems.filter (fun p =>
    decide (now - 30 * dayMs ≤ p.created_at) &&
      (isMunicipal || decide (p.user_id = userId)))

/-- How much one problem contributes to the active count of day `d`. -/
def activeContrib (p : Problem) (d : Nat) : Nat :=
  if dayOf p.created_at = d ∧ p.status ≠ "Resolved" then 1 else 0

/-- How much one problem contributes to the resolved count of day `d`. -/
def resolvedContrib (p : Problem) (d : Nat) : Nat :=
  match p.resolved_at with
  | some t => if dayOf t = d then 1 else 0
  | none => 0

/-- Number of problems in `probs` created (and still unresolved) on day `d`. -/
def trendActive (probs : List Problem) (d : Nat) : Nat :=
  (probs.map (fun p => activeContrib p d)).sum

/-- Number of problems in `probs` resolved on day `d`. -/
def trendResolved (probs : List Problem) (d : Nat) : Nat :=
  (probs.map (fun p => resolvedContrib p d)).sum

/-- Look up the (active, resolved) value stored for day `d`. -/
def bucketAt (m : List Bucket) (d : Nat) : Option (Nat × Nat) :=
  (m.find? (fun b => decide (b.1 = d))).map (fun b => b.2)

/-- The day keys of a bucket list. -/
def bucketKeys (m : List Bucket) : List Nat :=
  m.map (fun b => b.1)

/-- One step of the `resolutionTimesMap` forEach: add `t` seconds to the
category's running total and bump its count, appending a fresh entry for a
first-seen category (JS object insertion order). -/
def bumpCat : List (String × Nat × Nat) → String → Nat → List (String × Nat × Nat)
  | [], cat, t => [(cat, t, 1)]
  | (c, tot, cnt) :: rest, cat, t =>
      if c = cat then (c, tot + t, cnt + 1) :: rest
      else (c, tot, cnt) :: bumpCat rest cat t

/-- The `resolvedComment.findMany({ include: { problem: { category } } })`
join: each feedback row paired with its problem's category. -/
def commentCategories (db : DB) : List (String × Nat) :=
  db.comments.filterMap (fun cm =>
    (db.problems.find? (fun p => decide (p.id = cm.problem_id))).map
      (fun p => (p.category, cm.time_taken)))

/-- The `resolutionTimesMap` object: category → (total seconds, feedback
count), identical in `GET /api/stats` and `GET /api/reports/strategic`. -/
def resolutionTimesMap (db : DB) : List (String × Nat × Nat) :=
  (commentCategories db).foldl (fun m ct => bumpCat m ct.1 ct.2) []

/-- JavaScript `Math.round`: round half toward positive infinity. -/
def jsRound (q : Rat) : Int := ⌊q + 1 / 2⌋

/-- The `resolutionTimes` array of `GET /api/stats`:
`Math.round((total / count) / 3600)` — rounded hours. -/
def getStatsResolutionTimes (db : DB) : List (String × Int) :=
  (resolutionTimesMap db).map (fun e =>
    (e.1, jsRound ((e.2.1 : Rat) / (e.2.2 : Rat) / 3600)))

/-- The `resolutionTimes` array of `GET /api/reports/strategic`:
`total / count` — raw seconds. -/
def strategicResolutionTimes (db : DB) : List (String × Rat) :=
  (resolutionTimesMap db).map (fun e =>
    (e.1, (e.2.1 : Rat) / (e.2.2 : Rat)))

/-- `prisma.problem.aggregate({ _avg: { sentiment_score } })` followed by
`|| 0`: the mean sentiment over the whole problem table (no `where`
clause), 0 when the table is empty. -/
def avgSentimentAll (probs : List Problem) : Rat :=
  if probs.length = 0 then 0
  else (probs.map Problem.sentiment_score).sum / (probs.length : Rat)

/-- The JSON body returned by `GET /api/stats`. -/
structure StatsResponse where
  totalProblems : Nat
  activeProblems : Nat
  resolvedProblems : Nat
  avgSentiment : Rat
  urgentAlerts : Nat
  activeClusters : Nat
  trends : List Bucket
  resolutionTimes : List (String × Int)
deriving DecidableEq

/-- `GET /api/stats`.  The four count queries carry a `user_id` filter for
citizen callers and none for municipal callers; the sentiment aggregate has
no `where` clause at all. -/
def getStats (db : DB) (isMunicipal : Bool) (userId : Nat) (now : Nat) :
    StatsResponse :=
  let scope := if isMunicipal then db.problems
               else db.problems.filter (fun p => decide (p.user_id = userId))
  { totalProblems := scope.length
    activeProblems := (scope.filter (fun p => decide (p.status ≠ "Resolved"))).length
    resolvedProblems := (scope.filter (fun p => decide (p.status = "Resolved"))).length
    avgSentiment := avgSentimentAll db.problems
    urgentAlerts := (scope.filter (fun p =>
      p.is_urgent && decide (p.status ≠ "Resolved"))).length
    activeClusters := db.clusters.length
    trends := trendsOf now (trendScope db isMunicipal userId now)
    resolutionTimes := getStatsResolutionTimes db }

/-- One step of the category group-by of the strategic report. -/
def bumpCount : List (String × Nat) → String → List (String × Nat)
  | [], cat => [(cat, 1)]
  | (c, n) :: rest, cat =>
      if c = cat then (c, n + 1) :: rest else (c, n) :: bumpCount rest cat

/-- Order used by `orderBy: { _count: { category: 'desc' } }`. -/
def countGE (a b : String × Nat) : Prop := b.2 ≤ a.2

instance : DecidableRel countGE :=
  fun a b => inferInstanceAs (Decidable (b.2 ≤ a.2))

/-- `problem.groupBy category, _count, orderBy count desc, take 5`. -/
def commonIssues (probs : List Problem) : List (String × Nat) :=
  (List.insertionSort countGE
    (probs.foldl (fun m p => bumpCount m p.category) [])).take 5

/-- One step of the location group-by of the strategic report. -/
def bumpSum : List (String × Rat × Nat) → String → Rat → List (String × Rat × Nat)
  | [], loc, s => [(loc, s, 1)]
  | (l, tot, n) :: rest, loc, s =>
      if l = loc then (l, tot + s, n + 1) :: rest
      else (l, tot, n) :: bumpSum rest loc s

/-- Order used by `orderBy: { _avg: { sentiment_score: 'asc' } }`. -/
def meanLE (a b : String × Rat) : Prop := a.2 ≤ b.2

instance : DecidableRel meanLE :=
  fun a b => inferInstanceAs (Decidable (a.2 ≤ b.2))

/-- `problem.groupBy location, _avg sentiment, orderBy avg asc, take 5`. -/
def negativeSentimentAreas (probs : List Problem) : List (String × Rat) :=
  (List.insertionSort meanLE
    ((probs.foldl (fun m p => bumpSum m p.location p.sentiment_score) []).map
      (fun e => (e.1, e.2.1 / (e.2.2 : Rat))))).take 5

/-- The initial value of `aiSummary`, left in place when the narrative
oracle call throws or returns empty text. -/
def placeholderNarrative : String :=
  "Strategic insights are being generated based on real-time data."

/-- The JSON body returned by `GET /api/reports/strategic`. -/
structure StrategicReport where
  commonIssues : List (String × Nat)
  negativeSentimentAreas : List (String × Rat)
  resolutionTimes : List (String × Rat)
  aiSummary : String
deriving DecidableEq

/-- `GET /api/reports/strategic`.  `oracle = none` models a narrative call
that threw; `some t` models a response whose `.text` is `t` (the JS
`response.text || aiSummary` treats empty text as absent). -/
def strategicReport (db : DB) (oracle : Option String) : StrategicReport :=
  { commonIssues := commonIssues db.problems
    negativeSentimentAreas := negativeSentimentAreas db.problems
    resolutionTimes := strategicResolutionTimes db
    aiSummary :=
      match oracle with
      | none => placeholderNarrative
      | some t => if t = "" then placeholderNarrative else t }

/-! Concrete states used by the example theorems and counterexamples. -/

/-- The empty store. -/
def db0 : DB := ⟨[], [], [], 0, 0⟩

/-- A classifier judgment suggesting topic "Water". -/
def exAnalysis : Analysis := ⟨"Negative", -3/5, 7, false, "Water", "Water"⟩

/-- A submission carrying `exAnalysis`. -/
def exRequest : SubmitRequest := ⟨"t2", "d2", "Water", "Main Road", exAnalysis⟩

/-- A cluster named "Water Leakage" holding one report of sentiment −0.8. -/
def waterCluster : Cluster := ⟨1, "Water Leakage", "Kottapeta", 1, -4/5⟩

/-- The single member report of `waterCluster`. -/
def waterProblem : Problem :=
  ⟨1, 1, "t1", "d1", "Water", "Kottapeta", "Pending", -4/5, "Negative", 9,
    true, 0, none, some 1⟩

/-- State with the "Water Leakage" cluster and its one member. -/
def dbWaterLeak : DB := ⟨[waterProblem], [waterCluster], [], 2, 2⟩

/-- State whose only cluster is named "Water". -/
def dbWaterOnly : DB := ⟨[], [⟨1, "Water", "X", 0, 0⟩], [], 2, 1⟩

/-- A report created at t = 1000 ms and resolved at t = 6000 ms. -/
def pResolved : Problem :=
  ⟨1, 1, "t", "d", "Water", "L", "Resolved", 0, "Neutral", 5, false,
    1000, some 6000, none⟩

/-- An already-stored feedback row for `pResolved`. -/
def firstFeedback : ResolvedComment := ⟨10, 1, 1, "Good", "ok", 5⟩

/-- State in which `pResolved` already has one feedback. -/
def dbRated : DB := ⟨[pResolved], [], [firstFeedback], 0, 2⟩

/-- State with the resolved report and no feedback. -/
def dbResolved : DB := ⟨[pResolved], [], [], 0, 2⟩

/-- A feedback row for `pResolved` with a two-hour resolution time. -/
def commentHours : ResolvedComment := ⟨10, 1, 1, "Good", "ok", 7200⟩

/-- State with one category ("Water") and one feedback of 7200 seconds. -/
def dbHours : DB := ⟨[pResolved], [], [commentHours], 0, 2⟩

/-- Query time for the trend examples: midnight of calendar day 100. -/
def nowC : Nat := 100 * dayMs

/-- A report created on day 60 (outside the 30-day fetch window of a query
at day 100) but resolved on day 99 (inside the window). -/
def pOld : Problem :=
  ⟨1, 1, "old", "d", "Water", "L", "Resolved", 0, "Neutral", 5, false,
    60 * dayMs, some (99 * dayMs), none⟩

/-- State containing only `pOld`. -/
def dbOld : DB := ⟨[pOld], [], [], 0, 2⟩

/-- A report created on day 95 and resolved on day 99, both inside the
window of a query at day 100. -/
def pRecent : Problem :=
  ⟨1, 1, "recent", "d", "Water", "L", "Resolved", 0, "Neutral", 5, false,
    95 * dayMs, some (99 * dayMs), none⟩

/-- State containing only `pRecent`. -/
def dbRecent : DB := ⟨[pRecent], [], [], 0, 2⟩

/-!  Theorems. -/

/-- C10.  For a citizen-scoped caller the four counters of `GET /api/stats`
range over that user's own reports only, while `avgSentiment` is the mean
sentiment over the whole problem table, identical to what any
municipal-scoped call reports. -/
theorem citizen_counts_own_sentiment_global (db : DB) (u now : Nat) :
    (getStats db false u now).totalProblems =
      (db.problems.filter (fun p => decide (p.user_id = u))).length ∧
    (getStats db false u now).activeProblems =
      ((db.problems.filter (fun p => decide (p.user_id = u))).filter
        (fun p => decide (p.status ≠ "Resolved"))).length ∧
    (getStats db false u now).resolvedProblems =
      ((db.problems.filter (fun p => decide (p.user_id = u))).filter
        (fun p => decide (p.status = "Resolved"))).length ∧
    (getStats db false u now).urgentAlerts =
      ((db.problems.filter (fun p => decide (p.user_id = u))).filter
        (fun p => p.is_urgent && decide (p.status ≠ "Resolved"))).length ∧
    (getStats db false u now).avgSentiment = avgSentimentAll db.problems ∧
    ∀ v, (getStats db false u now).avgSentiment =
      (getStats db true v now).avgSentiment :=
  ⟨rfl, rfl, rfl, rfl, rfl, fun _ => rfl⟩

/-- C7.  The strategic report is total: its structured fields always equal
the live aggregates (with at most five entries in the top lists), and when
the narrative oracle fails or returns empty text the narrative field is the
placeholder string rather than an error. -/
theorem strategic_report_degrades_gracefully (db : DB) (oracle : Option String) :
    (strategicReport db oracle).commonIssues = commonIssues db.problems ∧
    (strategicReport db oracle).negativeSentimentAreas =
      negativeSentimentAreas db.problems ∧
    (strategicReport db oracle).resolutionTimes = strategicResolutionTimes db ∧
    (strategicReport db oracle).commonIssues.length ≤ 5 ∧
    (strategicReport db oracle).negativeSentimentAreas.length ≤ 5 ∧
    (oracle = none → (strategicReport db oracle).aiSummary = placeholderNarrative) ∧
    (oracle = some "" → (strategicReport db oracle).aiSummary = placeholderNarrative) ∧
    (∀ t, oracle = some t → t ≠ "" → (strategicReport db oracle).aiSummary = t) := by
  refine ⟨rfl, rfl, rfl, ?_, ?_, ?_, ?_, ?_⟩
  · exact List.length_take_le 5 _
  · exact List.length_take_le 5 _
  · rintro rfl; rfl
  · rintro rfl; rfl
  · rintro t rfl ht
    simp [strategicReport, ht]

/-- Witness for C7: with an empty store, a failed oracle call yields the
placeholder narrative, and a successful one yields its own text. -/
theorem strategic_report_degrades_gracefully_witness :
    (strategicReport db0 none).aiSummary = placeholderNarrative ∧
    (strategicReport db0 (some "All quiet")).aiSummary = "All quiet" :=
  ⟨(strategic_report_degrades_gracefully db0 none).2.2.2.2.2.1 rfl,
   (strategic_report_degrades_gracefully db0 (some "All quiet")).2.2.2.2.2.2.2
     "All quiet" rfl (by decide)⟩

/-- C9.  Cluster matching is one-directional: a suggestion `s` matches an
existing cluster exactly when that cluster's stored name contains `s` as a
substring (then the store is left unchanged); a suggestion that strictly
contains the only existing cluster's name — "Water Leakage" against cluster
"Water" — matches nothing and a new cluster named after the suggestion is
appended. -/
theorem cluster_match_one_directional :
    (∀ (db : DB) (sugg loc : String),
      ((resolveCluster db sugg loc).2 = db ↔
        ∃ c ∈ db.clusters, sugg.toList <:+: c.cluster_name.toList)) ∧
    (resolveCluster dbWaterOnly "Water Leakage" "Y").1.cluster_name =
      "Water Leakage" ∧
    (resolveCluster dbWaterOnly "Water Leakage" "Y").2.clusters =
      dbWaterOnly.clusters ++ [(resolveCluster dbWaterOnly "Water Leakage" "Y").1] ∧
    (resolveCluster dbWaterOnly "Water" "Y").2 = dbWaterOnly := by
  refine ⟨?_, by decide, by decide, by decide⟩
  intro db sugg loc
  constructor
  · intro h
    by_contra hno
    have hfind : findCluster db.clusters sugg = none := by
      rw [findCluster, List.find?_eq_none]
      intro c hc hcon
      exact hno ⟨c, hc, of_decide_eq_true hcon⟩
    have : (resolveCluster db sugg loc).2.nextClusterId = db.nextClusterId + 1 := by
      simp [resolveCluster, hfind]
    rw [h] at this
    omega
  · rintro ⟨c, hc, hinf⟩
    have hsome : (findCluster db.clusters sugg).isSome = true := by
      rw [findCluster, List.find?_isSome]
      exact ⟨c, hc, decide_eq_true hinf⟩
    obtain ⟨c', hc'⟩ := Option.isSome_iff_exists.mp hsome
    simp [resolveCluster, hc']

/-- Witness for C9: the suggestion "Water" matches the cluster named
"Water", so the store is unchanged. -/
theorem cluster_match_one_directional_witness :
    (resolveCluster dbWaterOnly "Water" "Y").2 = dbWaterOnly :=
  (cluster_match_one_directional.1 dbWaterOnly "Water" "Y").mpr
    ⟨⟨1, "Water", "X", 0, 0⟩, by decide, by decide⟩

/-- Counterexample to C5: `pResolved` already has the feedback
`firstFeedback`, yet a second feedback submission is accepted (the handler
returns success, not an InvalidState error) and a second row is written,
so the store ends with two feedback rows for the same report. -/
theorem second_feedback_accepted :
    postComment dbRated 1 1 "Good" "again" 11 =
      .ok ({ dbRated with comments :=
              dbRated.comments ++ [⟨11, 1, 1, "Good", "again", 5⟩] }, 5) ∧
    ((dbRated.comments ++ ([⟨11, 1, 1, "Good", "again", 5⟩] : List ResolvedComment)).filter
      (fun c => decide (c.problem_id = 1))).length = 2 := by
  constructor
  · rfl
  · rfl

/-- C5 as amended: the handler checks only `resolved_at`.  A feedback for a
missing report or one without `resolved_at` is rejected with an error and
no write; a feedback for any report with `resolved_at = r` succeeds with
`time_taken = (r − created_at) / 1000` seconds appended as a new row —
regardless of how many feedback rows for that report already exist. -/
theorem feedback_checks_resolved_at_only (db : DB) (pid u : Nat)
    (rating comment : String) (cid : Nat) :
    (db.problems.find? (fun p => decide (p.id = pid)) = none →
      postComment db pid u rating comment cid = .error "Problem not resolved") ∧
    (∀ p, db.problems.find? (fun p => decide (p.id = pid)) = some p →
      p.resolved_at = none →
      postComment db pid u rating comment cid = .error "Problem not resolved") ∧
    (∀ p r, db.problems.find? (fun p => decide (p.id = pid)) = some p →
      p.resolved_at = some r →
      postComment db pid u rating comment cid =
        .ok ({ db with comments := db.comments ++
                [⟨cid, pid, u, rating, comment, (r - p.created_at) / 1000⟩] },
             (r - p.created_at) / 1000)) := by
  refine ⟨?_, ?_, ?_⟩
  · intro h; simp [postComment, h]
  · intro p hp hr; simp [postComment, hp, hr]
  · intro p r hp hr; simp [postComment, hp, hr]

/-- Witness for the amended C5: the second feedback on the already-rated
`dbRated` goes through with `time_taken = (6000 − 1000) / 1000 = 5`. -/
theorem feedback_checks_resolved_at_only_witness :
    dbRated.problems.find? (fun p => decide (p.id = 1)) = some pResolved ∧
    postComment dbRated 1 1 "Good" "again" 11 =
      .ok ({ dbRated with comments :=
              dbRated.comments ++ [⟨11, 1, 1, "Good", "again", 5⟩] }, 5) :=
  ⟨by decide,
   (feedback_checks_resolved_at_only dbRated 1 1 "Good" "again" 11).2.2
     pResolved 6000 (by decide) (by decide)⟩

/-- Counterexample to C6: the store `dbResolved` satisfies the
"`resolved_at` set iff Resolved" invariant, yet a status update back to
Pending is accepted and leaves `resolved_at` in place, so Resolved is not
terminal and the invariant is broken afterwards. -/
theorem resolved_not_terminal :
    resolvedIffInvariant dbResolved ∧
    (updateStatus dbResolved 1 "Pending" 9000).problems =
      [{ pResolved with status := "Pending" }] ∧
    ¬ resolvedIffInvariant (updateStatus dbResolved 1 "Pending" 9000) := by
  refine ⟨?_, by decide, ?_⟩
  · intro p hp
    simp [dbResolved] at hp
    subst hp
    decide
  · intro h
    have := h { pResolved with status := "Pending" } (by decide)
    simp [pResolved] at this

/-- C6 as amended: a status update to Resolved stamps `resolved_at` with
the update time (hence `resolved_at ≥ created_at` whenever the update does
not predate creation), while an update to any other status changes the
status alone and leaves `resolved_at` untouched — so a Resolved report can
be moved back to Pending with `resolved_at` still set, and the
"iff"-invariant is not preserved by the handler. -/
theorem status_update_behaviour (db : DB) (pid : Nat) (st : String) (now : Nat)
    (p : Problem) (hp : p ∈ db.problems) :
    ∃ q ∈ (updateStatus db pid st now).problems,
      ((p.id = pid ∧ st = "Resolved") →
        q.status = "Resolved" ∧ q.resolved_at = some now ∧
        (p.created_at ≤ now → ∀ t ∈ q.resolved_at, p.created_at ≤ t)) ∧
      (st ≠ "Resolved" → q.resolved_at = p.resolved_at) ∧
      ((p.id = pid ∧ st ≠ "Resolved") → q.status = st) ∧
      (p.id ≠ pid → q = p) := by
  by_cases hst : st = "Resolved"
  · subst hst
    by_cases hid : p.id = pid
    · refine ⟨{ p with status := "Resolved", resolved_at := some now }, ?_, ?_, ?_, ?_, ?_⟩
      · simp only [updateStatus, if_pos rfl]
        have h := List.mem_map_of_mem (fun q : Problem =>
          if q.id = pid then { q with status := "Resolved", resolved_at := some now }
          else q) hp
        simpa [hid] using h
      · intro _
        refine ⟨rfl, rfl, ?_⟩
        intro _ t ht
        simp only [Option.mem_def, Option.some.injEq] at ht
        omega
      · intro h; exact absurd rfl h
      · rintro ⟨_, h⟩; exact absurd rfl h
      · intro h; exact absurd hid h
    · refine ⟨p, ?_, ?_, fun _ => rfl, ?_, fun _ => rfl⟩
      · simp only [updateStatus, if_pos rfl]
        have h := List.mem_map_of_mem (fun q : Problem =>
          if q.id = pid then { q with status := "Resolved", resolved_at := some now }
          else q) hp
        simpa [hid] using h
      · rintro ⟨h1, _⟩; exact absurd h1 hid
      · rintro ⟨h1, _⟩; exact absurd h1 hid
  · by_cases hid : p.id = pid
    · refine ⟨{ p with status := st }, ?_, ?_, fun _ => rfl, fun _ => rfl, ?_⟩
      · simp only [updateStatus, if_neg hst]
        have h := List.mem_map_of_mem (fun q : Problem =>
          if q.id = pid then { q with status := st } else q) hp
        simpa [hid] using h
      · rintro ⟨_, h⟩; exact absurd h hst
      · intro h; exact absurd hid h
    · refine ⟨p, ?_, ?_, fun _ => rfl, ?_, fun _ => rfl⟩
      · simp only [updateStatus, if_neg hst]
        have h := List.mem_map_of_mem (fun q : Problem =>
          if q.id = pid then { q with status := st } else q) hp
        simpa [hid] using h
      · rintro ⟨h1, _⟩; exact absurd h1 hid
      · rintro ⟨h1, _⟩; exact absurd h1 hid

/-- Witness for the amended C6: demoting the resolved report to Pending
leaves its `resolved_at` timestamp in place. -/
theorem status_update_behaviour_witness :
    pResolved ∈ dbResolved.problems ∧
    ∃ q ∈ (updateStatus dbResolved 1 "Pending" 9000).problems,
      q.resolved_at = pResolved.resolved_at := by
  refine ⟨by decide, ?_⟩
  obtain ⟨q, hq, _, h2, _, _⟩ :=
    status_update_behaviour dbResolved 1 "Pending" 9000 pResolved (by decide)
  exact ⟨q, hq, h2 (by decide)⟩

/-- Counterexample to C8: with a single two-hour feedback in category
"Water", `GET /api/stats` reports a mean of 2 (rounded hours) while the
strategic report reports 7200 (raw seconds) for the same category — the
two consumers do not agree on one unit. -/
theorem resolution_time_unit_mismatch :
    getStatsResolutionTimes dbHours = [("Water", (2 : Int))] ∧
    strategicResolutionTimes dbHours = [("Water", (7200 : Rat))] ∧
    ((2 : Int) : Rat) ≠ (7200 : Rat) := by
  refine ⟨?_, ?_, by norm_num⟩
  · simp only [getStatsResolutionTimes, resolutionTimesMap, commentCategories,
      dbHours, commentHours, pResolved, bumpCat, jsRound, List.filterMap,
      List.find?, List.foldl, List.map]
    norm_num
  · simp only [strategicResolutionTimes, resolutionTimesMap, commentCategories,
      dbHours, commentHours, pResolved, bumpCat, List.filterMap, List.find?,
      List.foldl, List.map]
    norm_num

/-- C8 as amended: both endpoints build their per-category means from the
same joined feedback data, and agree on the categories, but `GET
/api/stats` reports `Math.round(mean / 3600)` (rounded hours) while the
strategic report returns the raw mean in seconds; each stats entry equals
the strategic entry pushed through that unit conversion. -/
theorem resolution_times_related_by_unit (db : DB) :
    getStatsResolutionTimes db =
      (strategicResolutionTimes db).map (fun e => (e.1, jsRound (e.2 / 3600))) ∧
    (getStatsResolutionTimes db).map (fun e => e.1) =
      (strategicResolutionTimes db).map (fun e => e.1) := by
  constructor <;>
    simp [getStatsResolutionTimes, strategicResolutionTimes, List.map_map,
      Function.comp]

/-! Find-or-create and reconciliation lemmas for the submission path. -/

theorem resolveCluster_found (db : DB) (sugg loc : String) (c : Cluster)
    (h : findCluster db.clusters sugg = some c) :
    resolveCluster db sugg loc = (c, db) := by
  simp [resolveCluster, h]

theorem resolveCluster_notFound (db : DB) (sugg loc : String)
    (h : findCluster db.clusters sugg = none) :
    resolveCluster db sugg loc =
      (⟨db.nextClusterId, sugg, loc, 0, 0⟩,
       { db with
         clusters := db.clusters ++ [⟨db.nextClusterId, sugg, loc, 0, 0⟩],
         nextClusterId := db.nextClusterId + 1 }) := by
  simp [resolveCluster, h]

theorem submitProblem_found (db : DB) (u : Nat) (s : SubmitRequest) (now : Nat)
    (c : Cluster)
    (h : findCluster db.clusters s.analysis.cluster_suggestion = some c) :
    submitProblem db u s now =
      refreshCluster
        { db with
          problems := db.problems ++ [newProblem db.nextProblemId u s now c.id],
          nextProblemId := db.nextProblemId + 1 } c.id := by
  simp only [submitProblem,
    resolveCluster_found db s.analysis.cluster_suggestion s.location c h]

theorem submitProblem_notFound (db : DB) (u : Nat) (s : SubmitRequest) (now : Nat)
    (h : findCluster db.clusters s.analysis.cluster_suggestion = none) :
    submitProblem db u s now =
      refreshCluster
        { db with
          clusters := db.clusters ++
            [⟨db.nextClusterId, s.analysis.cluster_suggestion, s.location, 0, 0⟩],
          nextClusterId := db.nextClusterId + 1,
          problems := db.problems ++
            [newProblem db.nextProblemId u s now db.nextClusterId],
          nextProblemId := db.nextProblemId + 1 } db.nextClusterId := by
  simp only [submitProblem,
    resolveCluster_notFound db s.analysis.cluster_suggestion s.location h]

theorem membersOf_append (probs : List Problem) (p : Problem) (cid : Nat) :
    membersOf (probs ++ [p]) cid =
      membersOf probs cid ++ (if p.cluster_id = some cid then [p] else []) := by
  by_cases h : p.cluster_id = some cid <;>
    simp [membersOf, List.filter_append, h]

theorem clusterCount_append_other (probs : List Problem) (p : Problem)
    (cid : Nat) (h : p.cluster_id ≠ some cid) :
    clusterCount (probs ++ [p]) cid = clusterCount probs cid := by
  simp [clusterCount, membersOf_append, h]

theorem clusterMean_append_other (probs : List Problem) (p : Problem)
    (cid : Nat) (h : p.cluster_id ≠ some cid) :
    clusterMean (probs ++ [p]) cid = clusterMean probs cid := by
  simp [clusterMean, membersOf_append, h]

theorem refreshCluster_ids (db : DB) (cid : Nat) :
    (refreshCluster db cid).clusters.map Cluster.id =
      db.clusters.map Cluster.id := by
  simp only [refreshCluster, List.map_map]
  apply List.map_congr_left
  intro c _
  by_cases h : c.id = cid <;> simp [h]

theorem clusterIdsOK_refresh (db : DB) (cid : Nat) (h : clusterIdsOK db) :
    clusterIdsOK (refreshCluster db cid) := by
  refine ⟨?_, ?_⟩
  · rw [refreshCluster_ids db cid]
    exact h.1
  · intro c hc
    simp only [refreshCluster, List.mem_map] at hc
    obtain ⟨a, ha, rfl⟩ := hc
    have hlt := h.2 a ha
    by_cases hid : a.id = cid <;> simp [refreshCluster, hid] <;> omega

theorem clusterStatsOK_refresh (db : DB) (cid : Nat)
    (h : ∀ c ∈ db.clusters, c.id ≠ cid →
      c.problem_count = clusterCount db.problems c.id ∧
      c.avg_sentiment = clusterMean db.problems c.id) :
    clusterStatsOK (refreshCluster db cid) := by
  intro c hc
  simp only [refreshCluster, List.mem_map] at hc
  obtain ⟨a, ha, rfl⟩ := hc
  by_cases hid : a.id = cid
  · simp only [refreshCluster, hid, if_pos rfl]
    exact ⟨by simp [hid], by simp [hid]⟩
  · simp only [refreshCluster, if_neg hid]
    exact h a ha hid

theorem clusterStatsOK_refresh_of_ok (db : DB) (cid : Nat)
    (h : clusterStatsOK db) : clusterStatsOK (refreshCluster db cid) :=
  clusterStatsOK_refresh db cid (fun c hc _ => h c hc)

theorem refreshCluster_idem (db : DB) (cid : Nat) :
    refreshCluster (refreshCluster db cid) cid = refreshCluster db cid := by
  simp only [refreshCluster, List.map_map]
  congr 1
  apply List.map_congr_left
  intro c _
  by_cases h : c.id = cid <;> simp [h]

theorem clusterIdsOK_submit (db : DB) (u : Nat) (s : SubmitRequest) (now : Nat)
    (h : clusterIdsOK db) : clusterIdsOK (submitProblem db u s now) := by
  cases hf : findCluster db.clusters s.analysis.cluster_suggestion with
  | some c =>
      rw [submitProblem_found db u s now c hf]
      exact clusterIdsOK_refresh _ _ ⟨h.1, h.2⟩
  | none =>
      rw [submitProblem_notFound db u s now hf]
      apply clusterIdsOK_refresh
      constructor
      · dsimp only
        rw [List.map_append, List.nodup_append]
        refine ⟨h.1, by simp, ?_⟩
        intro x hx hx'
        simp at hx'
        obtain ⟨a, ha, rfl⟩ := List.mem_map.mp hx
        have := h.2 a ha
        omega
      · intro c hc
        dsimp only at hc ⊢
        rcases List.mem_append.mp hc with hold | hnew
        · exact Nat.lt_succ_of_lt (h.2 c hold)
        · simp at hnew
          subst hnew
          exact Nat.lt_succ_self _

theorem clusterStatsOK_submit (db : DB) (u : Nat) (s : SubmitRequest) (now : Nat)
    (hWF : clusterIdsOK db) (hOK : clusterStatsOK db) :
    clusterStatsOK (submitProblem db u s now) := by
  cases hf : findCluster db.clusters s.analysis.cluster_suggestion with
  | some c =>
      rw [submitProblem_found db u s now c hf]
      apply clusterStatsOK_refresh
      intro a ha hne
      dsimp only at ha ⊢
      have hbase := hOK a ha
      have hnp : (newProblem db.nextProblemId u s now c.id).cluster_id ≠
          some a.id := by
        simp only [newProblem, ne_eq, Option.some.injEq]
        exact fun hcontra => hne hcontra.symm
      exact ⟨by rw [clusterCount_append_other _ _ _ hnp]; exact hbase.1,
             by rw [clusterMean_append_other _ _ _ hnp]; exact hbase.2⟩
  | none =>
      rw [submitProblem_notFound db u s now hf]
      apply clusterStatsOK_refresh
      intro a ha hne
      dsimp only at ha hne ⊢
      rcases List.mem_append.mp ha with hold | hnew
      · have hbase := hOK a hold
        have hlt := hWF.2 a hold
        have hnp : (newProblem db.nextProblemId u s now db.nextClusterId).cluster_id ≠
            some a.id := by
          simp only [newProblem, ne_eq, Option.some.injEq]
          omega
        exact ⟨by rw [clusterCount_append_other _ _ _ hnp]; exact hbase.1,
               by rw [clusterMean_append_other _ _ _ hnp]; exact hbase.2⟩
      · simp at hnew
        subst hnew
        simp at hne

theorem applyOps_invariants (ops : List Op) :
    ∀ db : DB, clusterIdsOK db → clusterStatsOK db →
      clusterIdsOK (applyOps db ops) ∧ clusterStatsOK (applyOps db ops) := by
  induction ops with
  | nil => exact fun db h1 h2 => ⟨h1, h2⟩
  | cons op rest ih =>
      intro db h1 h2
      have hstep : clusterIdsOK (applyOp db op) ∧ clusterStatsOK (applyOp db op) := by
        cases op with
        | submit u s now =>
            exact ⟨clusterIdsOK_submit db u s now h1,
                   clusterStatsOK_submit db u s now h1 h2⟩
        | refresh cid =>
            exact ⟨clusterIdsOK_refresh db cid h1,
                   clusterStatsOK_refresh_of_ok db cid h2⟩
      exact ih (applyOp db op) hstep.1 hstep.2

/-- C1.  From any well-formed store whose stored cluster statistics match
the problem table, any interleaving of report submissions and statistics
refreshes leaves every cluster's stored `problem_count` equal to the number
of its member reports and its stored `avg_sentiment` equal to their mean
sentiment (0 when empty); moreover the refresh is idempotent: running it
twice in a row without intervening writes produces the same store. -/
theorem cluster_stats_reconciled (db : DB) (ops : List Op)
    (h1 : clusterIdsOK db) (h2 : clusterStatsOK db) :
    clusterStatsOK (applyOps db ops) ∧
    ∀ (e : DB) (cid : Nat),
      refreshCluster (refreshCluster e cid) cid = refreshCluster e cid :=
  ⟨(applyOps_invariants ops db h1 h2).2, fun e cid => refreshCluster_idem e cid⟩

/-- Witness for C1: the empty store satisfies both hypotheses, and after a
concrete submission the stored statistics are still reconciled. -/
theorem cluster_stats_reconciled_witness :
    clusterIdsOK db0 ∧ clusterStatsOK db0 ∧
    clusterStatsOK (applyOps db0 [Op.submit 1 exRequest 0]) := by
  have h1 : clusterIdsOK db0 := ⟨by simp [db0], by simp [db0]⟩
  have h2 : clusterStatsOK db0 := by intro c hc; simp [db0] at hc
  exact ⟨h1, h2, (cluster_stats_reconciled db0 [Op.submit 1 exRequest 0] h1 h2).1⟩

/-- The `findFirst` of the C4 scenario: the suggestion "Water" matches the
stored cluster "Water Leakage" because the name contains the suggestion. -/
theorem findCluster_dbWaterLeak :
    findCluster dbWaterLeak.clusters "Water" = some waterCluster := by
  have h1 : strContains "Water Leakage" "Water" = true := by decide
  simp [findCluster, dbWaterLeak, waterCluster] at h1 ⊢
  simp [h1]

/-- C4.  Cluster resolution on submission: a suggestion matching an
existing cluster (the stored name containing it) returns that cluster and
leaves the store unchanged; an unmatched suggestion creates a cluster named
after the suggestion with the submitted location as area; the created
report row is assigned the resolved cluster's id.  Concretely, submitting a
second report with suggestion "Water" and sentiment −0.6 while cluster
"Water Leakage" holds one report of sentiment −0.8 joins both reports in
that cluster, with stored count 2 and stored mean −0.7. -/
theorem cluster_find_or_create :
    (∀ (db : DB) (sugg loc : String) (c : Cluster),
      findCluster db.clusters sugg = some c →
        resolveCluster db sugg loc = (c, db)) ∧
    (∀ (db : DB) (sugg loc : String),
      findCluster db.clusters sugg = none →
        (resolveCluster db sugg loc).1.cluster_name = sugg ∧
        (resolveCluster db sugg loc).1.area = loc ∧
        (resolveCluster db sugg loc).2.clusters =
          db.clusters ++ [(resolveCluster db sugg loc).1]) ∧
    (∀ (db : DB) (u : Nat) (s : SubmitRequest) (now : Nat),
      (submitProblem db u s now).problems =
        db.problems ++ [newProblem db.nextProblemId u s now
          (resolveCluster db s.analysis.cluster_suggestion s.location).1.id]) ∧
    (submitProblem dbWaterLeak 1 exRequest (5 * dayMs)).clusters =
      [⟨1, "Water Leakage", "Kottapeta", 2, -7/10⟩] ∧
    (submitProblem dbWaterLeak 1 exRequest (5 * dayMs)).problems.map
      (fun p => p.cluster_id) = [some 1, some 1] := by
  refine ⟨?_, ?_, ?_, ?_, ?_⟩
  · intro db sugg loc c h
    exact resolveCluster_found db sugg loc c h
  · intro db sugg loc h
    rw [resolveCluster_notFound db sugg loc h]
    exact ⟨rfl, rfl, rfl⟩
  · intro db u s now
    cases hf : findCluster db.clusters s.analysis.cluster_suggestion with
    | some c =>
        rw [submitProblem_found db u s now c hf,
          resolveCluster_found db s.analysis.cluster_suggestion s.location c hf]
        rfl
    | none =>
        rw [submitProblem_notFound db u s now hf,
          resolveCluster_notFound db s.analysis.cluster_suggestion s.location hf]
        rfl
  · have hf : findCluster dbWaterLeak.clusters
        exRequest.analysis.cluster_suggestion = some waterCluster :=
      findCluster_dbWaterLeak
    rw [submitProblem_found dbWaterLeak 1 exRequest (5 * dayMs) waterCluster hf]
    simp only [refreshCluster, clusterCount, clusterMean, membersOf,
      dbWaterLeak, waterCluster, waterProblem, newProblem, exRequest,
      exAnalysis, List.filter, List.map, List.length]
    norm_num
  · have hf : findCluster dbWaterLeak.clusters
        exRequest.analysis.cluster_suggestion = some waterCluster :=
      findCluster_dbWaterLeak
    rw [submitProblem_found dbWaterLeak 1 exRequest (5 * dayMs) waterCluster hf]
    simp [refreshCluster, dbWaterLeak, waterCluster, waterProblem, newProblem,
      exRequest, exAnalysis]

/-- Witness for C4: resolving "Water" against the store holding cluster
"Water Leakage" returns that cluster unchanged. -/
theorem cluster_find_or_create_witness :
    resolveCluster dbWaterLeak "Water" "Y" = (waterCluster, dbWaterLeak) :=
  cluster_find_or_create.1 dbWaterLeak "Water" "Y" waterCluster
    findCluster_dbWaterLeak

/-! Lemmas describing the trend-bucket loop of `GET /api/stats`. -/

theorem bucketKeys_bumpActive (m : List Bucket) (d : Nat) :
    bucketKeys (bumpActive m d) = bucketKeys m := by
  induction m with
  | nil => rfl
  | cons b rest ih =>
      obtain ⟨k, a, r⟩ := b
      by_cases h : k = d
      · simp [bumpActive, h, bucketKeys]
      · simp only [bumpActive, if_neg h, bucketKeys, List.map_cons] at ih ⊢
        rw [ih]

theorem bucketKeys_bumpResolved (m : List Bucket) (d : Nat) :
    bucketKeys (bumpResolved m d) = bucketKeys m := by
  induction m with
  | nil => rfl
  | cons b rest ih =>
      obtain ⟨k, a, r⟩ := b
      by_cases h : k = d
      · simp [bumpResolved, h, bucketKeys]
      · simp only [bumpResolved, if_neg h, bucketKeys, List.map_cons] at ih ⊢
        rw [ih]

theorem bucketAt_bumpActive_eq (m : List Bucket) (d : Nat) :
    bucketAt (bumpActive m d) d =
      (bucketAt m d).map (fun v => (v.1 + 1, v.2)) := by
  induction m with
  | nil => rfl
  | cons b rest ih =>
      obtain ⟨k, a, r⟩ := b
      by_cases h : k = d
      · subst h
        simp [bumpActive, bucketAt, List.find?]
      · simp only [bumpActive, if_neg h, bucketAt, List.find?,
          decide_eq_false h, Option.map_map] at ih ⊢
        exact ih

theorem bucketAt_bumpActive_ne (m : List Bucket) (d e : Nat) (hne : e ≠ d) :
    bucketAt (bumpActive m d) e = bucketAt m e := by
  induction m with
  | nil => rfl
  | cons b rest ih =>
      obtain ⟨k, a, r⟩ := b
      by_cases h : k = d
      · have hk : ¬ d = e := fun c => hne c.symm
        simp [bumpActive, h, bucketAt, List.find?, decide_eq_false hk]
      · by_cases hk : k = e
        · simp [bumpActive, h, bucketAt, List.find?, decide_eq_true hk]
        · simp only [bumpActive, if_neg h, bucketAt, List.find?,
            decide_eq_false hk] at ih ⊢
          exact ih

theorem bucketAt_bumpResolved_eq (m : List Bucket) (d : Nat) :
    bucketAt (bumpResolved m d) d =
      (bucketAt m d).map (fun v => (v.1, v.2 + 1)) := by
  induction m with
  | nil => rfl
  | cons b rest ih =>
      obtain ⟨k, a, r⟩ := b
      by_cases h : k = d
      · subst h
        simp [bumpResolved, bucketAt, List.find?]
      · simp only [bumpResolved, if_neg h, bucketAt, List.find?,
          decide_eq_false h, Option.map_map] at ih ⊢
        exact ih

theorem bucketAt_bumpResolved_ne (m : List Bucket) (d e : Nat) (hne : e ≠ d) :
    bucketAt (bumpResolved m d) e = bucketAt m e := by
  induction m with
  | nil => rfl
  | cons b rest ih =>
      obtain ⟨k, a, r⟩ := b
      by_cases h : k = d
      · have hk : ¬ d = e := fun c => hne c.symm
        simp [bumpResolved, h, bucketAt, List.find?, decide_eq_false hk]
      · by_cases hk : k = e
        · simp [bumpResolved, h, bucketAt, List.find?, decide_eq_true hk]
        · simp only [bumpResolved, if_neg h, bucketAt, List.find?,
            decide_eq_false hk] at ih ⊢
          exact ih

theorem bucketAt_applyTrendProblem (m : List Bucket) (p : Problem) (d : Nat) :
    bucketAt (applyTrendProblem m p) d =
      (bucketAt m d).map
        (fun v => (v.1 + activeContrib p d, v.2 + resolvedContrib p d)) := by
  have hactive : bucketAt
      (if p.status ≠ "Resolved" then bumpActive m (dayOf p.created_at) else m) d =
      (bucketAt m d).map (fun v => (v.1 + activeContrib p d, v.2)) := by
    by_cases hs : p.status ≠ "Resolved"
    · rw [if_pos hs]
      by_cases hd : dayOf p.created_at = d
      · subst hd
        rw [bucketAt_bumpActive_eq]
        simp [activeContrib, hs]
      · rw [bucketAt_bumpActive_ne _ _ _ (fun he => hd he.symm)]
        have : activeContrib p d = 0 := by
          simp [activeContrib, hd]
        rw [this]
        cases bucketAt m d <;> simp
    · rw [if_neg hs]
      have : activeContrib p d = 0 := by
        simp only [activeContrib, ite_eq_right_iff]
        exact fun hc => absurd hc.2 (by simpa using hs)
      rw [this]
      cases bucketAt m d <;> simp
  unfold applyTrendProblem
  cases hr : p.resolved_at with
  | none =>
      simp only []
      rw [hactive]
      have : resolvedContrib p d = 0 := by simp [resolvedContrib, hr]
      rw [this]
      simp
  | some t =>
      simp only []
      by_cases hd : dayOf t = d
      · subst hd
        rw [bucketAt_bumpResolved_eq, hactive]
        have : resolvedContrib p (dayOf t) = 1 := by
          simp [resolvedContrib, hr]
        rw [this]
        cases bucketAt m (dayOf t) <;> simp
      · rw [bucketAt_bumpResolved_ne _ _ _ (fun he => hd he.symm), hactive]
        have : resolvedContrib p d = 0 := by
          simp [resolvedContrib, hr, hd]
        rw [this]
        simp

theorem bucketAt_fold (probs : List Problem) (m : List Bucket) (d : Nat) :
    bucketAt (probs.foldl applyTrendProblem m) d =
      (bucketAt m d).map
        (fun v => (v.1 + trendActive probs d, v.2 + trendResolved probs d)) := by
  induction probs generalizing m with
  | nil =>
      simp only [List.foldl_nil, trendActive, trendResolved, List.map_nil,
        List.sum_nil, Nat.add_zero]
      cases h : bucketAt m d <;> simp
  | cons p rest ih =>
      rw [List.foldl_cons, ih, bucketAt_applyTrendProblem]
      have ha : trendActive (p :: rest) d =
          activeContrib p d + trendActive rest d := by
        simp [trendActive]
      have hb : trendResolved (p :: rest) d =
          resolvedContrib p d + trendResolved rest d := by
        simp [trendResolved]
      rw [ha, hb]
      cases h : bucketAt m d <;> simp [Nat.add_assoc]

theorem bucketAt_initTrend (today d : Nat) (h : 29 ≤ today) :
    bucketAt (initTrend today) d =
      (if today - 29 ≤ d ∧ d ≤ today then some (0, 0) else none) := by
  by_cases hw : today - 29 ≤ d ∧ d ≤ today
  · rw [if_pos hw]
    have hmem : ∃ b ∈ initTrend today,
        (fun b : Bucket => decide (b.1 = d)) b = true := by
      refine ⟨(today - (today - d), 0, 0), ?_, ?_⟩
      · have := List.mem_map_of_mem (fun i => ((today - i : Nat), 0, 0))
          (List.mem_range.mpr (show today - d < 30 by omega))
        simpa [initTrend] using this
      · simp only [decide_eq_true_eq]
        omega
    have hsome := List.find?_isSome.mpr hmem
    obtain ⟨b, hb⟩ := Option.isSome_iff_exists.mp hsome
    have hbmem := List.mem_of_find?_eq_some hb
    have hbval : b.2 = ((0 : Nat), (0 : Nat)) := by
      simp only [initTrend, List.mem_map] at hbmem
      obtain ⟨i, _, rfl⟩ := hbmem
      rfl
    simp [bucketAt, hb, hbval]
  · rw [if_neg hw]
    have hfind : List.find? (fun b : Bucket => decide (b.1 = d))
        (initTrend today) = none := by
      rw [List.find?_eq_none]
      intro b hbmem
      simp only [initTrend, List.mem_map] at hbmem
      obtain ⟨i, hi, rfl⟩ := hbmem
      simp only [decide_eq_true_eq]
      rw [List.mem_range] at hi
      omega
    simp [bucketAt, hfind]

theorem bucketKeys_initTrend (today : Nat) :
    bucketKeys (initTrend today) =
      (List.range 30).map (fun i => today - i) := by
  simp [bucketKeys, initTrend, List.map_map, Function.comp]

theorem bucketKeys_fold (probs : List Problem) (m : List Bucket) :
    bucketKeys (probs.foldl applyTrendProblem m) = bucketKeys m := by
  induction probs generalizing m with
  | nil => rfl
  | cons p rest ih =>
      rw [List.foldl_cons, ih]
      unfold applyTrendProblem
      cases p.resolved_at <;> by_cases hs : p.status ≠ "Resolved" <;>
        simp [hs, bucketKeys_bumpActive, bucketKeys_bumpResolved]

theorem trendsOf_keys (now : Nat) (probs : List Problem) (h : 29 ≤ dayOf now) :
    bucketKeys (trendsOf now probs) =
      (List.range 30).map (fun i => dayOf now - 29 + i) := by
  have hperm : (List.insertionSort bucketLE
      (probs.foldl applyTrendProblem (initTrend (dayOf now)))).Perm
      (probs.foldl applyTrendProblem (initTrend (dayOf now))) :=
    List.perm_insertionSort bucketLE _
  have hkeysM : bucketKeys (probs.foldl applyTrendProblem (initTrend (dayOf now))) =
      (List.range 30).map (fun i => dayOf now - i) := by
    rw [bucketKeys_fold, bucketKeys_initTrend]
  have hkeysperm : (bucketKeys (trendsOf now probs)).Perm
      ((List.range 30).map (fun i => dayOf now - i)) := by
    rw [← hkeysM]
    exact (hperm.map (fun b : Bucket => b.1))
  have ndAsc : ((List.range 30).map (fun i => dayOf now - 29 + i)).Nodup := by
    refine List.Nodup.map_on ?_ (List.nodup_range 30)
    intro x _ y _ hxy
    omega
  have ndDesc : ((List.range 30).map (fun i => dayOf now - i)).Nodup := by
    refine List.Nodup.map_on ?_ (List.nodup_range 30)
    intro x hx y hy hxy
    rw [List.mem_range] at hx hy
    omega
  have hmemiff : ∀ a, a ∈ (List.range 30).map (fun i => dayOf now - i) ↔
      a ∈ (List.range 30).map (fun i => dayOf now - 29 + i) := by
    intro a
    simp only [List.mem_map, List.mem_range]
    constructor
    · rintro ⟨i, hi, rfl⟩
      exact ⟨29 - i, by omega, by omega⟩
    · rintro ⟨i, hi, rfl⟩
      exact ⟨29 - i, by omega, by omega⟩
  have hpermAsc : (bucketKeys (trendsOf now probs)).Perm
      ((List.range 30).map (fun i => dayOf now - 29 + i)) :=
    hkeysperm.trans ((List.perm_ext_iff_of_nodup ndDesc ndAsc).mpr hmemiff)
  have hsorted : List.Pairwise (fun a b : Nat => a ≤ b)
      (bucketKeys (trendsOf now probs)) := by
    have hs := List.sorted_insertionSort bucketLE
      (probs.foldl applyTrendProblem (initTrend (dayOf now)))
    exact List.pairwise_map.mpr hs
  have ndS : (bucketKeys (trendsOf now probs)).Nodup :=
    (hpermAsc.nodup_iff).mpr ndAsc
  have hlt : List.Pairwise (fun a b : Nat => a < b)
      (bucketKeys (trendsOf now probs)) :=
    (hsorted.and ndS).imp (fun hab => Nat.lt_of_le_of_ne hab.1 hab.2)
  have hltAsc : List.Pairwise (fun a b : Nat => a < b)
      ((List.range 30).map (fun i => dayOf now - 29 + i)) := by
    refine List.pairwise_map.mpr ?_
    exact (List.pairwise_lt_range 30).imp (fun hij => by omega)
  haveI : IsAntisymm Nat (fun a b : Nat => a < b) :=
    ⟨fun a b h1 h2 => absurd h2 (Nat.lt_asymm h1)⟩
  exact List.eq_of_perm_of_sorted hpermAsc hlt hltAsc

theorem trendsOf_length (now : Nat) (probs : List Problem) (h : 29 ≤ dayOf now) :
    (trendsOf now probs).length = 30 := by
  have hlen := congrArg List.length (trendsOf_keys now probs h)
  simpa [bucketKeys] using hlen

theorem mem_trendsOf (now : Nat) (probs : List Problem) (h : 29 ≤ dayOf now)
    (d : Nat) (h1 : dayOf now - 29 ≤ d) (h2 : d ≤ dayOf now) :
    (d, trendActive probs d, trendResolved probs d) ∈ trendsOf now probs := by
  have hat : bucketAt (probs.foldl applyTrendProblem (initTrend (dayOf now))) d =
      some (trendActive probs d, trendResolved probs d) := by
    rw [bucketAt_fold, bucketAt_initTrend _ _ h, if_pos ⟨h1, h2⟩]
    simp
  rw [bucketAt] at hat
  cases hfind : List.find? (fun b : Bucket => decide (b.1 = d))
      (probs.foldl applyTrendProblem (initTrend (dayOf now))) with
  | none =>
      rw [hfind] at hat
      simp at hat
  | some b =>
      rw [hfind] at hat
      obtain ⟨b1, b2⟩ := b
      have hb1 : b1 = d := by
        have := List.find?_some hfind
        simpa using this
      have hb2 : b2 = (trendActive probs d, trendResolved probs d) := by
        simpa using hat
      have hbmem := List.mem_of_find?_eq_some hfind
      rw [hb1, hb2] at hbmem
      exact ((List.perm_insertionSort bucketLE _).mem_iff).mpr hbmem

/-- C2.  The trend series returned by `GET /api/stats` always has exactly
30 buckets whose dates are the 30 consecutive calendar days ending today,
sorted ascending; every day of the window is present with its
active/resolved counts, so a day with no matching reports appears with
explicit zeros rather than being absent. -/
theorem trend_series_thirty_days (db : DB) (isM : Bool) (u now : Nat)
    (h : 29 ≤ dayOf now) :
    (getStats db isM u now).trends.length = 30 ∧
    bucketKeys (getStats db isM u now).trends =
      (List.range 30).map (fun i => dayOf now - 29 + i) ∧
    (∀ d, dayOf now - 29 ≤ d → d ≤ dayOf now →
      (d, trendActive (trendScope db isM u now) d,
          trendResolved (trendScope db isM u now) d) ∈
        (getStats db isM u now).trends) ∧
    (∀ d, dayOf now - 29 ≤ d → d ≤ dayOf now →
      trendActive (trendScope db isM u now) d = 0 →
      trendResolved (trendScope db isM u now) d = 0 →
      (d, 0, 0) ∈ (getStats db isM u now).trends) := by
  have hg : (getStats db isM u now).trends =
      trendsOf now (trendScope db isM u now) := rfl
  refine ⟨?_, ?_, ?_, ?_⟩
  · rw [hg]
    exact trendsOf_length now _ h
  · rw [hg]
    exact trendsOf_keys now _ h
  · intro d h1 h2
    rw [hg]
    exact mem_trendsOf now _ h d h1 h2
  · intro d h1 h2 ha hr
    rw [hg]
    have hm := mem_trendsOf now (trendScope db isM u now) h d h1 h2
    rwa [ha, hr] at hm

/-- Witness for C2: a concrete query at day 100 over the empty store
returns a 30-bucket series. -/
theorem trend_series_thirty_days_witness :
    29 ≤ dayOf nowC ∧ (getStats db0 true 1 nowC).trends.length = 30 :=
  ⟨by decide, (trend_series_thirty_days db0 true 1 nowC (by decide)).1⟩

/-- Counterexample to C3: `pOld` was resolved on day 99, inside the 30-day
window of a query at day 100, yet because it was created on day 60 the
`created_at >= now − 30d` fetch filter excludes it, the loop never sees it,
and every bucket's resolved count — including day 99's — stays 0.  The
claim says its resolution day's bucket is incremented regardless of the
creation date. -/
theorem resolved_outside_creation_window_not_counted :
    pOld.resolved_at = some (99 * dayMs) ∧
    dayOf (99 * dayMs) = 99 ∧
    dayOf nowC - 29 ≤ 99 ∧ 99 ≤ dayOf nowC ∧
    trendScope dbOld true 1 nowC = [] ∧
    (getStats dbOld true 1 nowC).trends =
      (List.range 30).map (fun i => (71 + i, 0, 0)) ∧
    ((getStats dbOld true 1 nowC).trends.all
      (fun b => decide (b.2.2 = 0))) = true := by
  refine ⟨rfl, by decide, by decide, by decide, by decide, by decide, by decide⟩

/-- C3 as amended: only reports that pass the `created_at >= now − 30d`
fetch filter are scanned; among those, every report with a `resolved_at`
falling on a window day bumps that day's resolved count (its creation day
within the fetched range is irrelevant).  A report created before the
window never contributes, even when resolved inside it. -/
theorem resolved_in_scope_counted (db : DB) (isM : Bool) (u now : Nat)
    (h : 29 ≤ dayOf now) (p : Problem) (hp : p ∈ trendScope db isM u now)
    (t : Nat) (ht : p.resolved_at = some t)
    (h1 : dayOf now - 29 ≤ dayOf t) (h2 : dayOf t ≤ dayOf now) :
    (dayOf t, trendActive (trendScope db isM u now) (dayOf t),
        trendResolved (trendScope db isM u now) (dayOf t)) ∈
      (getStats db isM u now).trends ∧
    1 ≤ trendResolved (trendScope db isM u now) (dayOf t) := by
  constructor
  · exact mem_trendsOf now (trendScope db isM u now) h (dayOf t) h1 h2
  · have hc : resolvedContrib p (dayOf t) = 1 := by
      simp [resolvedContrib, ht]
    have hmem : resolvedContrib p (dayOf t) ∈
        (trendScope db isM u now).map (fun q => resolvedContrib q (dayOf t)) :=
      List.mem_map_of_mem _ hp
    have hsum := List.single_le_sum (fun x _ => Nat.zero_le x) _ hmem
    rw [hc] at hsum
    exact hsum

/-- Witness for the amended C3: the report created on day 95 and resolved
on day 99 is in scope at a day-100 query and bumps day 99's resolved
count. -/
theorem resolved_in_scope_counted_witness :
    pRecent ∈ trendScope dbRecent true 1 nowC ∧
    1 ≤ trendResolved (trendScope dbRecent true 1 nowC) (dayOf (99 * dayMs)) :=
  ⟨by decide,
   (resolved_in_scope_counted dbRecent true 1 nowC (by decide) pRecent
      (by decide) (99 * dayMs) rfl (by decide) (by decide)).2⟩

end Civic
